import Mathlib

/-!
Shallow embedding of the program-roulette on-chain program
(src/programs/program-roulette/src). Machine integers (u64, u128, u8) are
modelled as Nat together with explicit bound checks mirroring the checked
arithmetic of the source; every fallible instruction body is a function from a
world state to a result paired with the raw post-state of its account writes.
The host ledger commits those writes only on success (spec, sections 5 and 7),
which is modelled by the commit function below. Token custody balances and
account-plumbing checks (PDA derivation, mints, deserialization, rent) are host
concerns outside the embedded core; outbound token transfers are recorded in
abstract recipient balances so that paid amounts are observable. Public keys
are modelled as Nat ids, with 0 standing for the default (all-zero) key.
-/

namespace Roulette

/-! Integer bounds for the machine integer widths used by the program. -/

def U64_MAX : Nat := 2 ^ 64 - 1

def U128_MAX : Nat := 2 ^ 128 - 1

/-! Constants from constants.rs. -/

def MAX_BETS_PER_ROUND : Nat := 10

def PROVIDER_DIVISOR : Nat := 62

def OWNER_DIVISOR : Nat := 91

def REWARD_PRECISION : Nat := 1000000000000

def MAX_BET_PERCENTAGE : Nat := 4

def MAX_BET_PERCENTAGE_DIVISOR : Nat := 100

def BET_TYPE_MAX : Nat := 15

/-- Address of the single vault modelled in the world state (an arbitrary
nonzero id, distinct from the default key 0). -/
def VAULT_KEY : Nat := 1

/-! Checked machine arithmetic, as used by the source via checked_add,
checked_sub, checked_mul, checked_div and the u64 try_from conversion. -/

def checked_add64 (a b : Nat) : Option Nat :=
  if a + b ≤ U64_MAX then some (a + b) else none

def checked_add128 (a b : Nat) : Option Nat :=
  if a + b ≤ U128_MAX then some (a + b) else none

def checked_sub (a b : Nat) : Option Nat :=
  if b ≤ a then some (a - b) else none

def checked_mul128 (a b : Nat) : Option Nat :=
  if a * b ≤ U128_MAX then some (a * b) else none

def checked_mul64 (a b : Nat) : Option Nat :=
  if a * b ≤ U64_MAX then some (a * b) else none

def checked_div (a b : Nat) : Option Nat :=
  if b = 0 then none else some (a / b)

def u64_try_from (a : Nat) : Option Nat :=
  if a ≤ U64_MAX then some a else none

/-! Errors from errors.rs that the embedded instructions can surface. -/

inductive Err where
  | BetsNotAccepted
  | InvalidBet
  | ArithmeticOverflow
  | BetAmountExceedsLimit
  | VaultMismatch
  | InvalidNumberOfBets
  | ClaimRoundMismatchOrNotCompleted
  | BetsRoundMismatch
  | Unauthorized
  | NoWinningsFound
  | InsufficientLiquidity
  | NoReward
  | RoundInProgress
  | CannotCloseBetsWithoutBets
  | RandomBeforeClosing
  | NoBetsPlacedInRound
  | AmountMustBeGreaterThanZero
  | AdminOnly
  deriving DecidableEq, Repr

/-! State types from state.rs.  PlayerBets carries the claimed_round field used
by instructions/player.rs (the snapshot of state.rs in src/ predates that
field, but the instruction code is authoritative for its behaviour). -/

inductive RoundStatus where
  | NotStarted
  | AcceptingBets
  | BetsClosed
  | Completed
  deriving DecidableEq, Repr

/-- The four u8 parameters of a bet (numbers array of state.rs). -/
structure Numbers where
  n0 : Nat
  n1 : Nat
  n2 : Nat
  n3 : Nat
  deriving DecidableEq, Repr

structure Bet where
  amount : Nat
  bet_type : Nat
  numbers : Numbers
  deriving DecidableEq, Repr

structure GameSession where
  authority : Nat
  current_round : Nat
  round_start_time : Int
  round_status : RoundStatus
  winning_number : Option Nat
  bets_closed_timestamp : Int
  get_random_timestamp : Int
  last_bettor : Option Nat
  last_completed_round : Nat
  deriving DecidableEq, Repr

structure VaultAccount where
  total_liquidity : Nat
  total_provider_capital : Nat
  owner_reward : Nat
  reward_per_share_index : Nat
  deriving DecidableEq, Repr

structure PlayerBets where
  player : Nat
  round : Nat
  vault : Nat
  bets : List Bet
  claimed_round : Nat
  deriving DecidableEq, Repr

structure ProviderState where
  vault : Nat
  provider : Nat
  amount : Nat
  unclaimed_rewards : Nat
  reward_per_share_index_last_claimed : Nat
  deriving DecidableEq, Repr

/-- The mutable accounts an instruction of this program can touch: the
game-session singleton, one vault, the acting provider state (none when the
account does not exist or was closed), one player-bets record, and abstract
balances recording tokens transferred out to the player, the provider and the
owner treasury. -/
structure World where
  session : GameSession
  vault : VaultAccount
  provider : Option ProviderState
  playerBets : PlayerBets
  player_balance : Nat
  provider_balance : Nat
  treasury_balance : Nat
  deriving DecidableEq, Repr

/-! Bet settlement logic from state.rs (impl PlayerBets). -/

def RED_NUMBERS : List Nat :=
  [1, 3, 5, 7, 9, 12, 14, 16, 18, 19, 21, 23, 25, 27, 30, 32, 34, 36]

def calculate_payout_multiplier (bet_type : Nat) : Nat :=
  match bet_type with
  | 0 => 36
  | 1 => 18
  | 2 => 9
  | 3 => 12
  | 4 => 6
  | 5 => 9
  | 6 | 7 | 8 | 9 | 10 | 11 => 2
  | 12 | 13 | 14 | 15 => 3
  | _ => 0

def is_bet_winner (bet_type : Nat) (numbers : Numbers) (winning_number : Nat) :
    Bool :=
  match bet_type with
  | 0 => numbers.n0 == winning_number
  | 1 => numbers.n0 == winning_number || numbers.n1 == winning_number
  | 2 =>
      let top_left := numbers.n0
      if top_left = 0 ∨ top_left > 34 ∨ top_left % 3 = 0 then false
      else [top_left, top_left + 1, top_left + 3, top_left + 4].contains
        winning_number
  | 3 =>
      let start_street := numbers.n0
      if start_street = 0 ∨ start_street > 34 ∨
          (start_street > 0 ∧ (start_street - 1) % 3 ≠ 0) then false
      else decide (winning_number > 0 ∧ winning_number ≥ start_street ∧
        winning_number < start_street + 3)
  | 4 =>
      let start_six_line := numbers.n0
      if start_six_line = 0 ∨ start_six_line > 31 ∨
          (start_six_line > 0 ∧ (start_six_line - 1) % 3 ≠ 0) then false
      else decide (winning_number > 0 ∧ winning_number ≥ start_six_line ∧
        winning_number < start_six_line + 6)
  | 5 => [0, 1, 2, 3].contains winning_number
  | 6 => RED_NUMBERS.contains winning_number
  | 7 => winning_number != 0 && !(RED_NUMBERS.contains winning_number)
  | 8 => winning_number != 0 && winning_number % 2 == 0
  | 9 => winning_number != 0 && winning_number % 2 == 1
  | 10 => decide (winning_number ≥ 1 ∧ winning_number ≤ 18)
  | 11 => decide (winning_number ≥ 19 ∧ winning_number ≤ 36)
  | 12 =>
      let column := numbers.n0
      if column < 1 ∨ column > 3 then false
      else winning_number != 0 && winning_number % 3 == column % 3
  | 13 => decide (winning_number ≥ 1 ∧ winning_number ≤ 12)
  | 14 => decide (winning_number ≥ 13 ∧ winning_number ≤ 24)
  | 15 => decide (winning_number ≥ 25 ∧ winning_number ≤ 36)
  | _ => false

/-! Round lifecycle instructions from instructions/game.rs.  Anchor account
constraints (the authority checks) run during account validation, before the
body; they are modelled as leading checks.  The SHA256 digest of the
last-bettor key, timestamp and slot is an external primitive (spec, section 6);
its low 64 bits enter the embedding as the entropy argument of get_random. -/

def initialize_game_session (authority : Nat) (w : World) :
    Option Err × World :=
  (none, { w with session :=
    { authority := authority
      current_round := 0
      round_start_time := 0
      round_status := RoundStatus.NotStarted
      winning_number := none
      bets_closed_timestamp := 0
      get_random_timestamp := 0
      last_bettor := none
      last_completed_round := 0 } })

def start_new_round (starter : Nat) (now : Int) (w : World) :
    Option Err × World :=
  if starter ≠ w.session.authority then (some Err.AdminOnly, w)
  else if ¬ (w.session.round_status = RoundStatus.NotStarted ∨
      w.session.round_status = RoundStatus.Completed) then
    (some Err.RoundInProgress, w)
  else
    match checked_add64 w.session.current_round 1 with
    | none => (some Err.ArithmeticOverflow, w)
    | some r =>
      (none, { w with session := { w.session with
        current_round := r
        round_start_time := now
        round_status := RoundStatus.AcceptingBets
        bets_closed_timestamp := 0
        get_random_timestamp := 0
        last_bettor := none } })

def close_bets (closer : Nat) (now : Int) (w : World) : Option Err × World :=
  if closer ≠ w.session.authority then (some Err.AdminOnly, w)
  else if w.session.round_status ≠ RoundStatus.AcceptingBets then
    (some Err.BetsNotAccepted, w)
  else if ¬ w.session.last_bettor.isSome then
    (some Err.CannotCloseBetsWithoutBets, w)
  else
    (none, { w with session := { w.session with
      round_status := RoundStatus.BetsClosed
      bets_closed_timestamp := now } })

def get_random (random_initiator : Nat) (now : Int) (entropy : Nat)
    (w : World) : Option Err × World :=
  if random_initiator ≠ w.session.authority then (some Err.AdminOnly, w)
  else if w.session.round_status ≠ RoundStatus.BetsClosed then
    (some Err.RandomBeforeClosing, w)
  else if ¬ w.session.last_bettor.isSome then
    (some Err.NoBetsPlacedInRound, w)
  else
    let winning_number := entropy % 37
    (none, { w with session := { w.session with
      winning_number := some winning_number
      round_status := RoundStatus.Completed
      last_completed_round := w.session.current_round
      get_random_timestamp := now } })

/-! Player instructions from instructions/player.rs. -/

def initialize_player_bets (player : Nat) (w : World) : Option Err × World :=
  (none, { w with playerBets :=
    { player := player, round := 0, vault := 0, bets := []
      claimed_round := 0 } })

/-- Second half of place_bet, from the bet-vector capacity check onward (after
the lazy round-switch rebinding of the player-bets record). -/
def place_bet_core (player : Nat) (bet : Bet) (w : World) :
    Option Err × World :=
  if w.playerBets.bets.length ≥ MAX_BETS_PER_ROUND then
    (some Err.InvalidNumberOfBets, w)
  else if ¬ bet.amount > 0 then (some Err.InvalidBet, w)
  else
    -- transfer_checked player to vault custody: external primitive
    match checked_add64 w.vault.total_liquidity bet.amount with
    | none => (some Err.ArithmeticOverflow, w)
    | some tl =>
      let w1 : World := { w with vault := { w.vault with total_liquidity := tl } }
      let provider_revenue := bet.amount / PROVIDER_DIVISOR
      let owner_revenue := bet.amount / OWNER_DIVISOR
      match checked_add64 w1.vault.owner_reward owner_revenue with
      | none => (some Err.ArithmeticOverflow, w1)
      | some orw =>
        let w2 : World :=
          { w1 with vault := { w1.vault with owner_reward := orw } }
        let finish : World → Option Err × World := fun w3 =>
          (none, { w3 with
            playerBets :=
              { w3.playerBets with bets := w3.playerBets.bets ++ [bet] }
            session := { w3.session with last_bettor := some player } })
        if w2.vault.total_provider_capital > 0 then
          match checked_mul128 provider_revenue REWARD_PRECISION with
          | none => (some Err.ArithmeticOverflow, w2)
          | some x =>
            match checked_div x w2.vault.total_provider_capital with
            | none => (some Err.ArithmeticOverflow, w2)
            | some inc =>
              match checked_add128 w2.vault.reward_per_share_index inc with
              | none => (some Err.ArithmeticOverflow, w2)
              | some idx =>
                finish
                  { w2 with vault :=
                      { w2.vault with reward_per_share_index := idx } }
        else finish w2

def place_bet (player : Nat) (bet : Bet) (w : World) : Option Err × World :=
  if w.session.round_status ≠ RoundStatus.AcceptingBets then
    (some Err.BetsNotAccepted, w)
  else if ¬ bet.bet_type ≤ BET_TYPE_MAX then (some Err.InvalidBet, w)
  else
    match checked_mul128 w.vault.total_liquidity MAX_BET_PERCENTAGE with
    | none => (some Err.ArithmeticOverflow, w)
    | some m =>
      match checked_div m MAX_BET_PERCENTAGE_DIVISOR with
      | none => (some Err.ArithmeticOverflow, w)
      | some mb =>
        -- the Rust code casts the u128 quotient to u64
        let max_bet_amount := mb % (U64_MAX + 1)
        if ¬ bet.amount ≤ max_bet_amount then
          (some Err.BetAmountExceedsLimit, w)
        else if w.playerBets.round ≠ w.session.current_round then
          -- first bet of a new round: clear the list and rebind the record
          let pb := w.playerBets
          place_bet_core player bet
            { w with playerBets :=
              { pb with
                bets := [], round := w.session.current_round,
                vault := VAULT_KEY,
                player := if pb.player = 0 then player else pb.player } }
        else if VAULT_KEY ≠ w.playerBets.vault then (some Err.VaultMismatch, w)
        else place_bet_core player bet w

/-- The winning-bet summation loop of claim_my_winnings, with the checked u64
arithmetic of the source. -/
def compute_total_payout (bets : List Bet) (winning_number : Nat) :
    Option Nat :=
  bets.foldl
    (fun acc bet =>
      acc.bind fun total =>
        if is_bet_winner bet.bet_type bet.numbers winning_number then
          (checked_mul64 bet.amount
              (calculate_payout_multiplier bet.bet_type)).bind
            fun payout_for_bet => checked_add64 total payout_for_bet
        else some total)
    (some 0)

def claim_my_winnings (player : Nat) (round_to_claim : Nat) (w : World) :
    Option Err × World :=
  if w.playerBets.player ≠ player then (some Err.Unauthorized, w)
  else if ¬ round_to_claim ≤ w.session.last_completed_round then
    (some Err.ClaimRoundMismatchOrNotCompleted, w)
  else if ¬ (round_to_claim = w.session.last_completed_round ∧
      w.session.winning_number.isSome) then
    (some Err.ClaimRoundMismatchOrNotCompleted, w)
  else if w.playerBets.round ≠ round_to_claim then
    (some Err.BetsRoundMismatch, w)
  else
    match w.session.winning_number with
    | none => (some Err.ClaimRoundMismatchOrNotCompleted, w)
    | some winning_number =>
      if ¬ w.playerBets.claimed_round < round_to_claim then
        (some Err.Unauthorized, w)
      else
        -- token-account deserialization, mint and owner checks: host plumbing
        match compute_total_payout w.playerBets.bets winning_number with
        | none => (some Err.ArithmeticOverflow, w)
        | some total_payout =>
          let actual_payout := min total_payout w.vault.total_liquidity
          if total_payout = 0 then
            -- the raw body writes claimed_round and then returns an error
            (some Err.NoWinningsFound,
              { w with playerBets :=
                { w.playerBets with claimed_round := round_to_claim } })
          else if ¬ actual_payout > 0 then
            (some Err.InsufficientLiquidity, w)
          else
            -- transfer_checked vault to player: external primitive
            let w1 : World :=
              { w with player_balance := w.player_balance + actual_payout }
            match checked_sub w1.vault.total_liquidity actual_payout with
            | none => (some Err.ArithmeticOverflow, w1)
            | some tl =>
              (none, { w1 with
                vault := { w1.vault with total_liquidity := tl }
                playerBets :=
                  { w1.playerBets with claimed_round := round_to_claim } })

/-! Vault instructions from instructions/vault.rs. -/

def calculate_newly_earned_rewards (provider_state : ProviderState)
    (current_reward_index : Nat) : Except Err Nat :=
  let last_claimed_index := provider_state.reward_per_share_index_last_claimed
  let provider_capital := provider_state.amount
  if last_claimed_index < current_reward_index ∧ provider_capital > 0 then
    match checked_sub current_reward_index last_claimed_index with
    | none => Except.error Err.ArithmeticOverflow
    | some index_delta =>
      match checked_mul128 index_delta provider_capital with
      | none => Except.error Err.ArithmeticOverflow
      | some x =>
        match checked_div x REWARD_PRECISION with
        | none => Except.error Err.ArithmeticOverflow
        | some y =>
          match u64_try_from y with
          | none => Except.error Err.ArithmeticOverflow
          | some newly => Except.ok newly
  else Except.ok 0

/-- instructions/vault.rs initialize_and_provide_liquidity.  The SOL creation
fee transfer, the token custody transfer and the custody authority handoff are
external primitives with no effect on the embedded accounting fields. -/
def initialize_and_provide_liquidity (liquidity_provider amount : Nat)
    (w : World) : Option Err × World :=
  (none, { w with
    vault := { total_liquidity := amount, total_provider_capital := amount
               owner_reward := 0, reward_per_share_index := 0 }
    provider := some { vault := VAULT_KEY, provider := liquidity_provider
                       amount := amount, unclaimed_rewards := 0
                       reward_per_share_index_last_claimed := 0 } })

def provide_liquidity (liquidity_provider amount : Nat) (w : World) :
    Option Err × World :=
  if ¬ amount > 0 then (some Err.AmountMustBeGreaterThanZero, w)
  else
    -- init_if_needed: a missing provider account starts zeroed
    let ps0 := w.provider.getD
      { vault := 0, provider := 0, amount := 0, unclaimed_rewards := 0
        reward_per_share_index_last_claimed := 0 }
    let current_reward_index := w.vault.reward_per_share_index
    match calculate_newly_earned_rewards ps0 current_reward_index with
    | Except.error e => (some e, w)
    | Except.ok newly_earned_reward =>
      match checked_add64 ps0.unclaimed_rewards newly_earned_reward with
      | none => (some Err.ArithmeticOverflow, w)
      | some unclaimed =>
        let ps1 : ProviderState := { ps0 with unclaimed_rewards := unclaimed }
        -- transfer_checked provider to vault custody: external primitive
        let ps2 : ProviderState :=
          if ps1.vault = 0 then
            { ps1 with vault := VAULT_KEY, provider := liquidity_provider }
          else ps1
        match checked_add64 w.vault.total_liquidity amount with
        | none => (some Err.ArithmeticOverflow, { w with provider := some ps2 })
        | some tl =>
          match checked_add64 w.vault.total_provider_capital amount with
          | none => (some Err.ArithmeticOverflow,
              { w with
                provider := some ps2,
                vault := { w.vault with total_liquidity := tl } })
          | some tpc =>
            match checked_add64 ps2.amount amount with
            | none => (some Err.ArithmeticOverflow,
                { w with
                  provider := some ps2,
                  vault := { w.vault with
                    total_liquidity := tl,
                    total_provider_capital := tpc } })
            | some pamt =>
              (none, { w with
                vault := { w.vault with
                  total_liquidity := tl,
                  total_provider_capital := tpc },
                provider := some { ps2 with
                  amount := pamt,
                  reward_per_share_index_last_claimed :=
                    current_reward_index } })

/-- Tail of withdraw_liquidity: subtract the capital part only from
total_provider_capital and close the provider account. -/
def withdraw_liquidity_close (total_capital_to_withdraw : Nat) (w : World) :
    Option Err × World :=
  match checked_sub w.vault.total_provider_capital total_capital_to_withdraw with
  | none => (some Err.ArithmeticOverflow, w)
  | some tpc =>
    (none, { w with
      vault := { w.vault with total_provider_capital := tpc }
      provider := none })

def withdraw_liquidity (liquidity_provider : Nat) (w : World) :
    Option Err × World :=
  match w.provider with
  | none => (some Err.Unauthorized, w)
  | some provider_state =>
    if provider_state.vault ≠ VAULT_KEY then (some Err.VaultMismatch, w)
    else if provider_state.provider ≠ liquidity_provider then
      (some Err.Unauthorized, w)
    else
      let current_reward_index := w.vault.reward_per_share_index
      match calculate_newly_earned_rewards provider_state
          current_reward_index with
      | Except.error e => (some e, w)
      | Except.ok newly_earned_reward =>
        match checked_add64 provider_state.unclaimed_rewards
            newly_earned_reward with
        | none => (some Err.ArithmeticOverflow, w)
        | some final_unclaimed_rewards =>
          let total_capital_to_withdraw := provider_state.amount
          match checked_add64 total_capital_to_withdraw
              final_unclaimed_rewards with
          | none => (some Err.ArithmeticOverflow, w)
          | some total_withdrawal_amount =>
            if total_withdrawal_amount > 0 then
              if ¬ w.vault.total_liquidity ≥ total_withdrawal_amount then
                (some Err.InsufficientLiquidity, w)
              else
                -- transfer vault to provider, then decrement liquidity
                let w1 : World := { w with provider_balance :=
                  w.provider_balance + total_withdrawal_amount }
                match checked_sub w1.vault.total_liquidity
                    total_withdrawal_amount with
                | none => (some Err.ArithmeticOverflow, w1)
                | some tl =>
                  withdraw_liquidity_close total_capital_to_withdraw
                    { w1 with vault :=
                        { w1.vault with total_liquidity := tl } }
            else withdraw_liquidity_close total_capital_to_withdraw w

def withdraw_provider_revenue (liquidity_provider : Nat) (w : World) :
    Option Err × World :=
  match w.provider with
  | none => (some Err.Unauthorized, w)
  | some ps0 =>
    if ps0.vault ≠ VAULT_KEY then (some Err.VaultMismatch, w)
    else if ps0.provider ≠ liquidity_provider then (some Err.Unauthorized, w)
    else
      let current_reward_index := w.vault.reward_per_share_index
      match calculate_newly_earned_rewards ps0 current_reward_index with
      | Except.error e => (some e, w)
      | Except.ok newly_earned_reward =>
        match checked_add64 ps0.unclaimed_rewards newly_earned_reward with
        | none => (some Err.ArithmeticOverflow, w)
        | some unclaimed =>
          let ps1 : ProviderState := { ps0 with unclaimed_rewards := unclaimed }
          let w1 : World := { w with provider := some ps1 }
          let total_rewards_to_claim := ps1.unclaimed_rewards
          if ¬ total_rewards_to_claim > 0 then (some Err.NoReward, w1)
          else if ¬ w1.vault.total_liquidity ≥ total_rewards_to_claim then
            (some Err.InsufficientLiquidity, w1)
          else
            -- transfer vault to provider: external primitive
            let w2 : World := { w1 with provider_balance :=
              w1.provider_balance + total_rewards_to_claim }
            match checked_sub w2.vault.total_liquidity
                total_rewards_to_claim with
            | none => (some Err.ArithmeticOverflow, w2)
            | some tl =>
              (none, { w2 with
                vault := { w2.vault with total_liquidity := tl },
                provider := some { ps1 with
                  unclaimed_rewards := 0,
                  reward_per_share_index_last_claimed :=
                    current_reward_index } })

def withdraw_owner_revenue (authority : Nat) (w : World) :
    Option Err × World :=
  if authority ≠ w.session.authority then (some Err.AdminOnly, w)
  else
    let reward_amount := w.vault.owner_reward
    if ¬ reward_amount > 0 then (some Err.NoReward, w)
    else if ¬ w.vault.total_liquidity ≥ reward_amount then
      (some Err.InsufficientLiquidity, w)
    else
      -- transfer vault to owner treasury: external primitive
      let w1 : World :=
        { w with treasury_balance := w.treasury_balance + reward_amount }
      match checked_sub w1.vault.total_liquidity reward_amount with
      | none => (some Err.ArithmeticOverflow, w1)
      | some tl =>
        (none, { w1 with vault := { w1.vault with
          total_liquidity := tl,
          owner_reward := 0 } })

def distribute_payout_reserve (authority : Nat) (w : World) :
    Option Err × World :=
  if authority ≠ w.session.authority then (some Err.AdminOnly, w)
  else
    match checked_sub w.vault.total_liquidity
        w.vault.total_provider_capital with
    | none => (some Err.ArithmeticOverflow, w)
    | some payout_reserve =>
      if ¬ payout_reserve > 0 then (some Err.NoReward, w)
      else
        match checked_div payout_reserve 2 with
        | none => (some Err.ArithmeticOverflow, w)
        | some amount_to_distribute =>
          if ¬ amount_to_distribute > 0 then (some Err.NoReward, w)
          else
            match checked_div amount_to_distribute 2 with
            | none => (some Err.ArithmeticOverflow, w)
            | some owner_share =>
              match checked_sub amount_to_distribute owner_share with
              | none => (some Err.ArithmeticOverflow, w)
              | some providers_share =>
                match checked_add64 w.vault.owner_reward owner_share with
                | none => (some Err.ArithmeticOverflow, w)
                | some orw =>
                  let w1 : World :=
                    { w with vault := { w.vault with owner_reward := orw } }
                  if w1.vault.total_provider_capital > 0 then
                    match checked_mul128 providers_share REWARD_PRECISION with
                    | none => (some Err.ArithmeticOverflow, w1)
                    | some x =>
                      match checked_div x
                          w1.vault.total_provider_capital with
                      | none => (some Err.ArithmeticOverflow, w1)
                      | some inc =>
                        match checked_add128
                            w1.vault.reward_per_share_index inc with
                        | none => (some Err.ArithmeticOverflow, w1)
                        | some idx =>
                          (none, { w1 with vault := { w1.vault with
                            reward_per_share_index := idx } })
                  else (none, w1)

/-- Read-only simulation helper get_unclaimed_rewards; the set_return_data
payload is modelled as the returned value. -/
def get_unclaimed_rewards (w : World) : Except Err Nat :=
  match w.provider with
  | none => Except.error Err.Unauthorized
  | some ps =>
    if ps.vault ≠ VAULT_KEY then Except.error Err.VaultMismatch
    else
      match calculate_newly_earned_rewards ps
          w.vault.reward_per_share_index with
      | Except.error e => Except.error e
      | Except.ok newly =>
        match checked_add64 ps.unclaimed_rewards newly with
        | none => Except.error Err.ArithmeticOverflow
        | some total => Except.ok total

/-! The operation alphabet and the host transaction semantics. -/

inductive Op where
  | initializeGameSession (authority : Nat)
  | initializePlayerBets (player : Nat)
  | startNewRound (starter : Nat) (now : Int)
  | closeBets (closer : Nat) (now : Int)
  | getRandom (initiator : Nat) (now : Int) (entropy : Nat)
  | initializeAndProvideLiquidity (provider amount : Nat)
  | provideLiquidity (provider amount : Nat)
  | placeBet (player : Nat) (bet : Bet)
  | claimMyWinnings (player round : Nat)
  | withdrawLiquidity (provider : Nat)
  | withdrawProviderRevenue (provider : Nat)
  | withdrawOwnerRevenue (authority : Nat)
  | distributePayoutReserve (authority : Nat)
  deriving DecidableEq, Repr

/-- The raw instruction body: the result together with the account state as
the body itself left it (irrespective of whether the instruction failed). -/
def runRaw : Op → World → Option Err × World
  | Op.initializeGameSession a, w => initialize_game_session a w
  | Op.initializePlayerBets p, w => initialize_player_bets p w
  | Op.startNewRound s now, w => start_new_round s now w
  | Op.closeBets c now, w => close_bets c now w
  | Op.getRandom i now entropy, w => get_random i now entropy w
  | Op.initializeAndProvideLiquidity p a, w =>
      initialize_and_provide_liquidity p a w
  | Op.provideLiquidity p a, w => provide_liquidity p a w
  | Op.placeBet p b, w => place_bet p b w
  | Op.claimMyWinnings p r, w => claim_my_winnings p r w
  | Op.withdrawLiquidity p, w => withdraw_liquidity p w
  | Op.withdrawProviderRevenue p, w => withdraw_provider_revenue p w
  | Op.withdrawOwnerRevenue a, w => withdraw_owner_revenue a w
  | Op.distributePayoutReserve a, w => distribute_payout_reserve a w

/-- Modelled from the spec: the host ledger executes each instruction as one
atomic transaction and applies its account writes only when it succeeds; any
failure aborts the transaction with zero state change (spec, sections 5 and
7).  This host behaviour is not part of src/; commit is its one-line model. -/
def commit (w : World) (r : Option Err × World) : World :=
  match r.1 with
  | some _ => w
  | none => r.2

/-- One observable (committed) transition of the deployed program. -/
def step (op : Op) (w : World) : World := commit w (runRaw op w)

/-- Observable state after a sequence of operations. -/
def runTrace (w : World) (ops : List Op) : World :=
  ops.foldl (fun w op => step op w) w

/-! Derived reward-ledger quantities used to state the claims. -/

/-- The newly earned reward of a provider at a given index value, as computed
by calculate_newly_earned_rewards on the non-aborting path. -/
def settle_delta (ps : ProviderState) (current : Nat) : Nat :=
  if ps.reward_per_share_index_last_claimed < current ∧ ps.amount > 0 then
    (current - ps.reward_per_share_index_last_claimed) * ps.amount /
      REWARD_PRECISION
  else 0

/-- Accrued but unpaid rewards of a provider at a given index value. -/
def pending_rewards (ps : ProviderState) (current : Nat) : Nat :=
  ps.unclaimed_rewards + settle_delta ps current

/-- One reward settlement against the index, as performed by the vault
operations: add the newly earned reward to unclaimed_rewards and advance the
checkpoint to the current index (the overflow aborts of the operations are
not reachable at the values quantified over here). -/
def settle (ps : ProviderState) (current : Nat) : ProviderState :=
  { ps with
    unclaimed_rewards := ps.unclaimed_rewards + settle_delta ps current,
    reward_per_share_index_last_claimed := current }

/-- The mathematical winning-bet sum of a bet list. -/
def payout_sum (bets : List Bet) (winning_number : Nat) : Nat :=
  (bets.map fun bet =>
    if is_bet_winner bet.bet_type bet.numbers winning_number then
      bet.amount * calculate_payout_multiplier bet.bet_type
    else 0).sum

/-! Concrete states and traces used by counterexamples and witnesses. -/

/-- The all-zero initial world: freshly allocated, unpopulated accounts. -/
def W0 : World :=
  { session :=
      { authority := 0, current_round := 0, round_start_time := 0,
        round_status := RoundStatus.NotStarted, winning_number := none,
        bets_closed_timestamp := 0, get_random_timestamp := 0,
        last_bettor := none, last_completed_round := 0 },
    vault :=
      { total_liquidity := 0, total_provider_capital := 0, owner_reward := 0,
        reward_per_share_index := 0 },
    provider := none,
    playerBets :=
      { player := 0, round := 0, vault := 0, bets := [], claimed_round := 0 },
    player_balance := 0, provider_balance := 0, treasury_balance := 0 }

/-- A committed state after round 1 completed with winning number 0, where
player 3 holds one losing straight bet on 7 and has not claimed. -/
def wLost : World :=
  { session :=
      { authority := 9, current_round := 1, round_start_time := 0,
        round_status := RoundStatus.Completed, winning_number := some 0,
        bets_closed_timestamp := 0, get_random_timestamp := 0,
        last_bettor := some 3, last_completed_round := 1 },
    vault :=
      { total_liquidity := 1000, total_provider_capital := 1000,
        owner_reward := 0, reward_per_share_index := 0 },
    provider := some
      { vault := VAULT_KEY, provider := 5, amount := 1000,
        unclaimed_rewards := 0, reward_per_share_index_last_claimed := 0 },
    playerBets :=
      { player := 3, round := 1, vault := VAULT_KEY,
        bets := [{ amount := 10, bet_type := 0, numbers := ⟨7, 0, 0, 0⟩ }],
        claimed_round := 0 },
    player_balance := 0, provider_balance := 0, treasury_balance := 0 }

/-- A committed state after round 1 completed with winning number 7, where
player 3 holds one winning straight bet on 7 of amount 10 (payout 360) but
the vault holds only 100 units of liquidity. -/
def wWin : World :=
  { session :=
      { authority := 9, current_round := 1, round_start_time := 0,
        round_status := RoundStatus.Completed, winning_number := some 7,
        bets_closed_timestamp := 0, get_random_timestamp := 0,
        last_bettor := some 3, last_completed_round := 1 },
    vault :=
      { total_liquidity := 100, total_provider_capital := 1000,
        owner_reward := 0, reward_per_share_index := 0 },
    provider := some
      { vault := VAULT_KEY, provider := 5, amount := 1000,
        unclaimed_rewards := 0, reward_per_share_index_last_claimed := 0 },
    playerBets :=
      { player := 3, round := 1, vault := VAULT_KEY,
        bets := [{ amount := 10, bet_type := 0, numbers := ⟨7, 0, 0, 0⟩ }],
        claimed_round := 0 },
    player_balance := 0, provider_balance := 0, treasury_balance := 0 }

/-- An accepting-bets state over a vault with 1000 units of liquidity, for
the maximum-bet boundary. -/
def wLimit : World :=
  { session :=
      { authority := 9, current_round := 1, round_start_time := 0,
        round_status := RoundStatus.AcceptingBets, winning_number := none,
        bets_closed_timestamp := 0, get_random_timestamp := 0,
        last_bettor := none, last_completed_round := 0 },
    vault :=
      { total_liquidity := 1000, total_provider_capital := 1000,
        owner_reward := 0, reward_per_share_index := 0 },
    provider := some
      { vault := VAULT_KEY, provider := 5, amount := 1000,
        unclaimed_rewards := 0, reward_per_share_index_last_claimed := 0 },
    playerBets :=
      { player := 3, round := 1, vault := VAULT_KEY, bets := [],
        claimed_round := 0 },
    player_balance := 0, provider_balance := 0, treasury_balance := 0 }

/-- Seed 1000 units, play round 1 with a 40-unit straight bet on 7, draw 7,
and claim: the 1040-unit payout (capped by total liquidity) empties the
vault below the 1000 units of provider capital. -/
def traceC1 : List Op :=
  [Op.initializeGameSession 9,
   Op.initializeAndProvideLiquidity 5 1000,
   Op.initializePlayerBets 3,
   Op.startNewRound 9 0,
   Op.placeBet 3 { amount := 40, bet_type := 0, numbers := ⟨7, 0, 0, 0⟩ },
   Op.closeBets 9 0,
   Op.getRandom 9 0 7,
   Op.claimMyWinnings 3 1]

/-- Seed, complete round 1 with winning number 7, then start round 2: the
session accepts bets again while winning_number is still set. -/
def traceC4 : List Op :=
  [Op.initializeGameSession 9,
   Op.initializeAndProvideLiquidity 5 1000,
   Op.initializePlayerBets 3,
   Op.startNewRound 9 0,
   Op.placeBet 3 { amount := 40, bet_type := 0, numbers := ⟨7, 0, 0, 0⟩ },
   Op.closeBets 9 0,
   Op.getRandom 9 0 7,
   Op.startNewRound 9 0]

/-- A provider of principal 3100 with checkpoint 0, as produced by seeding a
vault with 3100 units.  Two 124-unit bets each raise the reward index by
floor(2e12 / 3100) = 645161290. -/
def psDust : ProviderState :=
  { vault := VAULT_KEY, provider := 5, amount := 3100,
    unclaimed_rewards := 0, reward_per_share_index_last_claimed := 0 }

/-- Seed a 3100-unit vault and place one 124-unit bet: the reward index
becomes floor(floor(124 / 62) * REWARD_PRECISION / 3100) = 645161290. -/
def traceC8a : List Op :=
  [Op.initializeGameSession 9,
   Op.initializeAndProvideLiquidity 5 3100,
   Op.initializePlayerBets 3,
   Op.startNewRound 9 0,
   Op.placeBet 3 { amount := 124, bet_type := 0, numbers := ⟨7, 0, 0, 0⟩ }]

/-- A second 124-unit bet doubles the reward index to 1290322580. -/
def traceC8b : List Op :=
  traceC8a ++
    [Op.placeBet 3 { amount := 124, bet_type := 0, numbers := ⟨7, 0, 0, 0⟩ }]

/-! Characterizations of the checked machine arithmetic. -/

@[simp]
theorem checked_add64_eq_some {a b c : Nat} :
    checked_add64 a b = some c ↔ a + b ≤ U64_MAX ∧ c = a + b := by
  unfold checked_add64; split <;> simp_all [eq_comm]

@[simp]
theorem checked_add128_eq_some {a b c : Nat} :
    checked_add128 a b = some c ↔ a + b ≤ U128_MAX ∧ c = a + b := by
  unfold checked_add128; split <;> simp_all [eq_comm]

@[simp]
theorem checked_sub_eq_some {a b c : Nat} :
    checked_sub a b = some c ↔ b ≤ a ∧ c = a - b := by
  unfold checked_sub; split <;> simp_all [eq_comm]

@[simp]
theorem checked_mul128_eq_some {a b c : Nat} :
    checked_mul128 a b = some c ↔ a * b ≤ U128_MAX ∧ c = a * b := by
  unfold checked_mul128; split <;> simp_all [eq_comm]

@[simp]
theorem checked_mul64_eq_some {a b c : Nat} :
    checked_mul64 a b = some c ↔ a * b ≤ U64_MAX ∧ c = a * b := by
  unfold checked_mul64; split <;> simp_all [eq_comm]

@[simp]
theorem checked_div_eq_some {a b c : Nat} :
    checked_div a b = some c ↔ b ≠ 0 ∧ c = a / b := by
  unfold checked_div; split <;> simp_all [eq_comm]

@[simp]
theorem u64_try_from_eq_some {a c : Nat} :
    u64_try_from a = some c ↔ a ≤ U64_MAX ∧ c = a := by
  unfold u64_try_from; split <;> simp_all [eq_comm]

/-! Success-path extraction lemmas for the round-lifecycle instructions. -/

theorem start_new_round_ok {s : Nat} {now : Int} {w w' : World}
    (h : start_new_round s now w = (none, w')) :
    w'.session.current_round = w.session.current_round + 1 ∧
    w'.session.last_completed_round = w.session.last_completed_round ∧
    w'.session.round_status = RoundStatus.AcceptingBets ∧
    w'.session.winning_number = w.session.winning_number ∧
    w'.vault = w.vault ∧ w'.provider = w.provider ∧
    w'.playerBets = w.playerBets := by
  unfold start_new_round at h
  repeat' split at h
  all_goals injection h with h1 h2
  all_goals first
  | exact Option.noConfusion h1
  | (subst h2; simp_all)

theorem close_bets_ok {c : Nat} {now : Int} {w w' : World}
    (h : close_bets c now w = (none, w')) :
    w'.session.current_round = w.session.current_round ∧
    w'.session.last_completed_round = w.session.last_completed_round ∧
    w'.session.round_status = RoundStatus.BetsClosed ∧
    w'.session.winning_number = w.session.winning_number ∧
    w'.vault = w.vault ∧ w'.provider = w.provider ∧
    w'.playerBets = w.playerBets := by
  unfold close_bets at h
  repeat' split at h
  all_goals injection h with h1 h2
  all_goals first
  | exact Option.noConfusion h1
  | (subst h2; simp_all)

theorem get_random_ok {i : Nat} {now : Int} {entropy : Nat} {w w' : World}
    (h : get_random i now entropy w = (none, w')) :
    w'.session.current_round = w.session.current_round ∧
    w'.session.last_completed_round = w.session.current_round ∧
    w'.session.round_status = RoundStatus.Completed ∧
    w'.session.winning_number = some (entropy % 37) ∧
    w'.vault = w.vault ∧ w'.provider = w.provider ∧
    w'.playerBets = w.playerBets := by
  unfold get_random at h
  repeat' split at h
  all_goals injection h with h1 h2
  all_goals first
  | exact Option.noConfusion h1
  | (subst h2; simp_all)

/-! Positive rewrites for the checked arithmetic. -/

theorem checked_add64_of_le {a b : Nat} (h : a + b ≤ U64_MAX) :
    checked_add64 a b = some (a + b) := by simp [checked_add64, h]

theorem checked_add128_of_le {a b : Nat} (h : a + b ≤ U128_MAX) :
    checked_add128 a b = some (a + b) := by simp [checked_add128, h]

theorem checked_sub_of_le {a b : Nat} (h : b ≤ a) :
    checked_sub a b = some (a - b) := by simp [checked_sub, h]

theorem checked_mul64_of_le {a b : Nat} (h : a * b ≤ U64_MAX) :
    checked_mul64 a b = some (a * b) := by simp [checked_mul64, h]

theorem checked_mul128_of_le {a b : Nat} (h : a * b ≤ U128_MAX) :
    checked_mul128 a b = some (a * b) := by simp [checked_mul128, h]

theorem checked_div_of_ne {a b : Nat} (h : b ≠ 0) :
    checked_div a b = some (a / b) := by simp [checked_div, h]

theorem u64_try_from_of_le {a : Nat} (h : a ≤ U64_MAX) :
    u64_try_from a = some a := by simp [u64_try_from, h]

/-! The reward helper computes settle_delta whenever it does not abort. -/

theorem calc_ok {ps : ProviderState} {i n : Nat}
    (h : calculate_newly_earned_rewards ps i = Except.ok n) :
    n = settle_delta ps i := by
  simp only [calculate_newly_earned_rewards] at h
  simp only [settle_delta]
  split at h
  · rename_i hcond
    rw [if_pos hcond]
    repeat' split at h
    all_goals simp_all
  · rename_i hcond
    rw [if_neg hcond]
    injection h with h
    omega

/-- With a checkpoint at or below the index and no overflow, the reward helper
returns exactly the floor formula of the specification. -/
theorem calc_eq {ps : ProviderState} {i : Nat}
    (hle : ps.reward_per_share_index_last_claimed ≤ i)
    (hm : (i - ps.reward_per_share_index_last_claimed) * ps.amount ≤ U128_MAX)
    (hd : (i - ps.reward_per_share_index_last_claimed) * ps.amount /
      REWARD_PRECISION ≤ U64_MAX) :
    calculate_newly_earned_rewards ps i =
      Except.ok ((i - ps.reward_per_share_index_last_claimed) * ps.amount /
        REWARD_PRECISION) := by
  simp only [calculate_newly_earned_rewards]
  split
  · rename_i hcond
    simp [checked_sub_of_le (Nat.le_of_lt hcond.1), checked_mul128_of_le hm,
      checked_div_of_ne (show REWARD_PRECISION ≠ 0 by norm_num [REWARD_PRECISION]),
      u64_try_from_of_le hd]
  · rename_i hcond
    have : (i - ps.reward_per_share_index_last_claimed) * ps.amount /
        REWARD_PRECISION = 0 := by
      rcases Decidable.not_and_iff_or_not.mp hcond with hlt | hz
      · have : i - ps.reward_per_share_index_last_claimed = 0 := by omega
        simp [this]
      · have : ps.amount = 0 := by omega
        simp [this]
    rw [this]

/-! The payout loop of claim_my_winnings computes the mathematical
winning-bet sum whenever that sum fits in a u64. -/

theorem compute_total_payout_go (n : Nat) (bets : List Bet) :
    ∀ acc : Nat, acc + payout_sum bets n ≤ U64_MAX →
      List.foldl
        (fun acc bet =>
          acc.bind fun total =>
            if is_bet_winner bet.bet_type bet.numbers n then
              (checked_mul64 bet.amount
                  (calculate_payout_multiplier bet.bet_type)).bind
                fun payout_for_bet => checked_add64 total payout_for_bet
            else some total)
        (some acc) bets = some (acc + payout_sum bets n) := by
  induction bets with
  | nil => intro acc h; simp [payout_sum]
  | cons bet bets ih =>
    intro acc h
    by_cases hw : is_bet_winner bet.bet_type bet.numbers n
    · have hsum : payout_sum (bet :: bets) n =
          bet.amount * calculate_payout_multiplier bet.bet_type +
            payout_sum bets n := by
        simp only [payout_sum, List.map_cons, List.sum_cons]
        rw [if_pos hw]
      rw [hsum] at h ⊢
      rw [List.foldl_cons]
      have hm : bet.amount * calculate_payout_multiplier bet.bet_type ≤
          U64_MAX := by omega
      have ha : acc + bet.amount * calculate_payout_multiplier bet.bet_type ≤
          U64_MAX := by omega
      have hstep :
          (some acc).bind (fun total =>
            if is_bet_winner bet.bet_type bet.numbers n then
              (checked_mul64 bet.amount
                  (calculate_payout_multiplier bet.bet_type)).bind
                fun payout_for_bet => checked_add64 total payout_for_bet
            else some total) =
          some (acc + bet.amount * calculate_payout_multiplier bet.bet_type) := by
        simp [hw, checked_mul64_of_le hm, checked_add64_of_le ha]
      rw [hstep]
      rw [ih (acc + bet.amount * calculate_payout_multiplier bet.bet_type)
        (by omega)]
      exact congrArg some (by omega)
    · have hsum : payout_sum (bet :: bets) n = payout_sum bets n := by
        simp only [payout_sum, List.map_cons, List.sum_cons]
        rw [if_neg hw]
        omega
      rw [hsum] at h ⊢
      rw [List.foldl_cons]
      have hstep :
          (some acc).bind (fun total =>
            if is_bet_winner bet.bet_type bet.numbers n then
              (checked_mul64 bet.amount
                  (calculate_payout_multiplier bet.bet_type)).bind
                fun payout_for_bet => checked_add64 total payout_for_bet
            else some total) = some acc := by
        simp [hw]
      rw [hstep]
      exact ih acc h

theorem compute_total_payout_eq {bets : List Bet} {n : Nat}
    (h : payout_sum bets n ≤ U64_MAX) :
    compute_total_payout bets n = some (payout_sum bets n) := by
  have hgo := compute_total_payout_go n bets 0 (by omega)
  simpa [compute_total_payout] using hgo

/-! Numeric values of the machine bounds. -/

theorem U64_MAX_eq : U64_MAX = 18446744073709551615 := by
  norm_num [U64_MAX]

theorem U128_MAX_eq :
    U128_MAX = 340282366920938463463374607431768211455 := by
  norm_num [U128_MAX]

/-! Which instructions leave the game session untouched (raw bodies, on both
the error and the success path). -/

theorem initialize_player_bets_session (p : Nat) (w : World) :
    ((initialize_player_bets p w).2).session = w.session := by
  simp [initialize_player_bets]

theorem initialize_and_provide_liquidity_session (p a : Nat) (w : World) :
    ((initialize_and_provide_liquidity p a w).2).session = w.session := by
  simp [initialize_and_provide_liquidity]

theorem claim_my_winnings_session (p r : Nat) (w : World) :
    ((claim_my_winnings p r w).2).session = w.session := by
  simp only [claim_my_winnings]
  repeat' split
  all_goals simp

theorem provide_liquidity_session (p a : Nat) (w : World) :
    ((provide_liquidity p a w).2).session = w.session := by
  simp only [provide_liquidity]
  repeat' split
  all_goals simp

theorem withdraw_liquidity_session (p : Nat) (w : World) :
    ((withdraw_liquidity p w).2).session = w.session := by
  simp only [withdraw_liquidity, withdraw_liquidity_close]
  repeat' split
  all_goals simp

theorem withdraw_provider_revenue_session (p : Nat) (w : World) :
    ((withdraw_provider_revenue p w).2).session = w.session := by
  simp only [withdraw_provider_revenue]
  repeat' split
  all_goals simp

theorem withdraw_owner_revenue_session (a : Nat) (w : World) :
    ((withdraw_owner_revenue a w).2).session = w.session := by
  simp only [withdraw_owner_revenue]
  repeat' split
  all_goals simp

theorem distribute_payout_reserve_session (a : Nat) (w : World) :
    ((distribute_payout_reserve a w).2).session = w.session := by
  simp only [distribute_payout_reserve]
  repeat' split
  all_goals simp

/-- The raw tail of place_bet can change the last bettor of the session but
no other session field, never changes total_provider_capital, and never
decreases total_liquidity. -/
theorem place_bet_core_raw (p : Nat) (b : Bet) (w : World) :
    ((place_bet_core p b w).2).session.current_round =
      w.session.current_round ∧
    ((place_bet_core p b w).2).session.last_completed_round =
      w.session.last_completed_round ∧
    ((place_bet_core p b w).2).session.round_status =
      w.session.round_status ∧
    ((place_bet_core p b w).2).session.winning_number =
      w.session.winning_number ∧
    ((place_bet_core p b w).2).vault.total_provider_capital =
      w.vault.total_provider_capital ∧
    w.vault.total_liquidity ≤
      ((place_bet_core p b w).2).vault.total_liquidity := by
  simp only [place_bet_core]
  repeat' split
  all_goals refine ⟨rfl, rfl, rfl, rfl, rfl, ?_⟩
  all_goals simp_all

/-- As place_bet_core_raw, for the whole place_bet body. -/
theorem place_bet_raw (p : Nat) (b : Bet) (w : World) :
    ((place_bet p b w).2).session.current_round = w.session.current_round ∧
    ((place_bet p b w).2).session.last_completed_round =
      w.session.last_completed_round ∧
    ((place_bet p b w).2).session.round_status = w.session.round_status ∧
    ((place_bet p b w).2).session.winning_number =
      w.session.winning_number ∧
    ((place_bet p b w).2).vault.total_provider_capital =
      w.vault.total_provider_capital ∧
    w.vault.total_liquidity ≤
      ((place_bet p b w).2).vault.total_liquidity := by
  simp only [place_bet]
  repeat' split
  all_goals try exact ⟨rfl, rfl, rfl, rfl, rfl, Nat.le_refl _⟩
  all_goals exact place_bet_core_raw p b _

/-! Success-path extraction lemmas for the vault-mutating instructions. -/

theorem place_bet_core_ok {p : Nat} {b : Bet} {w w' : World}
    (h : place_bet_core p b w = (none, w')) :
    w'.vault.total_liquidity = w.vault.total_liquidity + b.amount ∧
    w'.vault.total_provider_capital = w.vault.total_provider_capital ∧
    w'.vault.owner_reward =
      w.vault.owner_reward + b.amount / OWNER_DIVISOR ∧
    (w.vault.total_provider_capital = 0 →
      w'.vault.reward_per_share_index = w.vault.reward_per_share_index) ∧
    (0 < w.vault.total_provider_capital →
      w'.vault.reward_per_share_index = w.vault.reward_per_share_index +
        b.amount / PROVIDER_DIVISOR * REWARD_PRECISION /
          w.vault.total_provider_capital) ∧
    w'.provider = w.provider ∧ 0 < b.amount ∧
    w'.playerBets.bets = w.playerBets.bets ++ [b] ∧
    w'.playerBets.round = w.playerBets.round ∧
    w'.playerBets.claimed_round = w.playerBets.claimed_round := by
  simp only [place_bet_core] at h
  repeat' split at h
  all_goals injection h with h1 h2
  all_goals first
  | exact Option.noConfusion h1
  | (subst h2; simp_all; omega)

/-- Success of place_bet: the vault gains the stake, provider capital is
unchanged, the owner accumulator gains the owner revenue, and the reward
index moves by the claimed increment exactly when provider capital is
nonzero. -/
theorem place_bet_ok {p : Nat} {b : Bet} {w w' : World}
    (h : place_bet p b w = (none, w')) :
    w'.vault.total_liquidity = w.vault.total_liquidity + b.amount ∧
    w'.vault.total_provider_capital = w.vault.total_provider_capital ∧
    w'.vault.owner_reward =
      w.vault.owner_reward + b.amount / OWNER_DIVISOR ∧
    (w.vault.total_provider_capital = 0 →
      w'.vault.reward_per_share_index = w.vault.reward_per_share_index) ∧
    (0 < w.vault.total_provider_capital →
      w'.vault.reward_per_share_index = w.vault.reward_per_share_index +
        b.amount / PROVIDER_DIVISOR * REWARD_PRECISION /
          w.vault.total_provider_capital) ∧
    w'.provider = w.provider ∧ 0 < b.amount := by
  simp only [place_bet] at h
  repeat' split at h
  all_goals first
  | (injection h with h1 h2; exact Option.noConfusion h1)
  | (have hc := place_bet_core_ok h; simp_all)

theorem distribute_payout_reserve_ok {a : Nat} {w w' : World}
    (h : distribute_payout_reserve a w = (none, w')) :
    w'.vault.total_liquidity = w.vault.total_liquidity ∧
    w'.vault.total_provider_capital = w.vault.total_provider_capital ∧
    w'.provider = w.provider ∧ w'.playerBets = w.playerBets := by
  simp only [distribute_payout_reserve] at h
  repeat' split at h
  all_goals injection h with h1 h2
  all_goals first
  | exact Option.noConfusion h1
  | (subst h2; simp_all)

theorem withdraw_owner_revenue_ok {a : Nat} {w w' : World}
    (h : withdraw_owner_revenue a w = (none, w')) :
    w.vault.owner_reward ≤ w.vault.total_liquidity ∧
    w'.vault.total_liquidity =
      w.vault.total_liquidity - w.vault.owner_reward ∧
    w'.vault.total_provider_capital = w.vault.total_provider_capital ∧
    w'.vault.owner_reward = 0 ∧
    w'.provider = w.provider ∧ w'.playerBets = w.playerBets := by
  simp only [withdraw_owner_revenue] at h
  repeat' split at h
  all_goals injection h with h1 h2
  all_goals first
  | exact Option.noConfusion h1
  | (subst h2; simp_all)

theorem provide_liquidity_ok {p a : Nat} {w w' : World}
    (h : provide_liquidity p a w = (none, w')) :
    w'.vault.total_liquidity = w.vault.total_liquidity + a ∧
    w'.vault.total_provider_capital =
      w.vault.total_provider_capital + a ∧
    w'.vault.owner_reward = w.vault.owner_reward ∧
    w'.vault.reward_per_share_index = w.vault.reward_per_share_index ∧
    w'.playerBets = w.playerBets := by
  simp only [provide_liquidity] at h
  repeat' split at h
  all_goals injection h with h1 h2
  all_goals first
  | exact Option.noConfusion h1
  | (subst h2; simp_all)

theorem provide_liquidity_ok_provider {p a : Nat} {ps : ProviderState}
    {w w' : World} (hp : w.provider = some ps) (hv : ps.vault = VAULT_KEY)
    (h : provide_liquidity p a w = (none, w')) :
    w'.provider = some
      { ps with
        amount := ps.amount + a,
        unclaimed_rewards := ps.unclaimed_rewards +
          settle_delta ps w.vault.reward_per_share_index,
        reward_per_share_index_last_claimed :=
          w.vault.reward_per_share_index } := by
  simp only [provide_liquidity, hp, Option.getD_some] at h
  cases hcalc : calculate_newly_earned_rewards ps
      w.vault.reward_per_share_index with
  | error e =>
    rw [hcalc] at h
    repeat' split at h
    all_goals simp_all
  | ok newly =>
    rw [hcalc] at h
    have hnd : newly = settle_delta ps w.vault.reward_per_share_index :=
      calc_ok hcalc
    subst hnd
    repeat' split at h
    all_goals injection h with h1 h2
    all_goals first
    | exact Option.noConfusion h1
    | (subst h2; simp_all [VAULT_KEY])

theorem withdraw_provider_revenue_ok {p : Nat} {w w' : World}
    (h : withdraw_provider_revenue p w = (none, w')) :
    ∃ ps, w.provider = some ps ∧
      0 < pending_rewards ps w.vault.reward_per_share_index ∧
      pending_rewards ps w.vault.reward_per_share_index ≤
        w.vault.total_liquidity ∧
      w'.vault.total_liquidity = w.vault.total_liquidity -
        pending_rewards ps w.vault.reward_per_share_index ∧
      w'.vault.total_provider_capital = w.vault.total_provider_capital ∧
      w'.vault.reward_per_share_index = w.vault.reward_per_share_index ∧
      w'.provider_balance = w.provider_balance +
        pending_rewards ps w.vault.reward_per_share_index ∧
      w'.provider = some
        { ps with
          unclaimed_rewards := 0,
          reward_per_share_index_last_claimed :=
            w.vault.reward_per_share_index } ∧
      w'.playerBets = w.playerBets := by
  cases hp : w.provider with
  | none => simp only [withdraw_provider_revenue, hp] at h; simp at h
  | some ps =>
    refine ⟨ps, rfl, ?_⟩
    simp only [withdraw_provider_revenue, hp] at h
    cases hcalc : calculate_newly_earned_rewards ps
        w.vault.reward_per_share_index with
    | error e =>
      rw [hcalc] at h
      repeat' split at h
      all_goals simp_all
    | ok newly =>
      rw [hcalc] at h
      have hnd : newly = settle_delta ps w.vault.reward_per_share_index :=
        calc_ok hcalc
      subst hnd
      repeat' split at h
      all_goals injection h with h1 h2
      all_goals first
      | exact Option.noConfusion h1
      | (subst h2; simp_all [pending_rewards]; try omega)

theorem withdraw_liquidity_ok {p : Nat} {w w' : World}
    (h : withdraw_liquidity p w = (none, w')) :
    ∃ ps, w.provider = some ps ∧
      ps.amount + pending_rewards ps w.vault.reward_per_share_index ≤
        w.vault.total_liquidity ∧
      w'.vault.total_liquidity = w.vault.total_liquidity -
        (ps.amount + pending_rewards ps w.vault.reward_per_share_index) ∧
      ps.amount ≤ w.vault.total_provider_capital ∧
      w'.vault.total_provider_capital =
        w.vault.total_provider_capital - ps.amount ∧
      w'.provider = none ∧
      w'.provider_balance = w.provider_balance +
        (ps.amount + pending_rewards ps w.vault.reward_per_share_index) ∧
      w'.playerBets = w.playerBets := by
  cases hp : w.provider with
  | none => simp only [withdraw_liquidity, hp] at h; simp at h
  | some ps =>
    refine ⟨ps, rfl, ?_⟩
    simp only [withdraw_liquidity, withdraw_liquidity_close, hp] at h
    cases hcalc : calculate_newly_earned_rewards ps
        w.vault.reward_per_share_index with
    | error e =>
      rw [hcalc] at h
      repeat' split at h
      all_goals simp_all
    | ok newly =>
      rw [hcalc] at h
      have hnd : newly = settle_delta ps w.vault.reward_per_share_index :=
        calc_ok hcalc
      subst hnd
      repeat' split at h
      all_goals injection h with h1 h2
      all_goals first
      | exact Option.noConfusion h1
      | (subst h2; simp_all [pending_rewards]; try omega)

/-! Reward-settlement algebra for the order-independence analysis. -/

theorem div_add_div_le (x y k : Nat) : x / k + y / k ≤ (x + y) / k := by
  rcases Nat.eq_zero_or_pos k with hk | hk
  · simp [hk]
  · rw [Nat.le_div_iff_mul_le hk]
    have hx := Nat.div_mul_le_self x k
    have hy := Nat.div_mul_le_self y k
    have : (x / k + y / k) * k = x / k * k + y / k * k := by ring
    omega

theorem settle_delta_eq {ps : ProviderState} {i : Nat}
    (hle : ps.reward_per_share_index_last_claimed ≤ i) :
    settle_delta ps i =
      (i - ps.reward_per_share_index_last_claimed) * ps.amount /
        REWARD_PRECISION := by
  unfold settle_delta
  split
  · rfl
  · rename_i hc
    rcases Decidable.not_and_iff_or_not.mp hc with hlt | hz
    · have hz : i - ps.reward_per_share_index_last_claimed = 0 := by omega
      simp [hz]
    · have hz : ps.amount = 0 := by omega
      simp [hz]

@[simp]
theorem settle_last (ps : ProviderState) (i : Nat) :
    (settle ps i).reward_per_share_index_last_claimed = i := rfl

@[simp]
theorem settle_amount (ps : ProviderState) (i : Nat) :
    (settle ps i).amount = ps.amount := rfl

@[simp]
theorem settle_unclaimed (ps : ProviderState) (i : Nat) :
    (settle ps i).unclaimed_rewards =
      ps.unclaimed_rewards + settle_delta ps i := rfl

theorem chain_le_last {a b : Nat} {l : List Nat}
    (h : List.Chain (· ≤ ·) a (l ++ [b])) : a ≤ b := by
  induction l generalizing a with
  | nil => cases h; assumption
  | cons c l ih =>
    cases h with
    | cons hac hrest => exact le_trans hac (ih hrest)

/-- Settling via an intermediate index point never yields more than settling
directly: each truncation can only lose dust. -/
theorem settle_settle_le (ps : ProviderState) {i j : Nat}
    (hci : ps.reward_per_share_index_last_claimed ≤ i) (hij : i ≤ j) :
    (settle (settle ps i) j).unclaimed_rewards ≤
      (settle ps j).unclaimed_rewards := by
  have hcj : ps.reward_per_share_index_last_claimed ≤ j :=
    le_trans hci hij
  have hmid : settle_delta (settle ps i) j =
      (j - i) * ps.amount / REWARD_PRECISION := by
    rw [settle_delta_eq (by simpa using hij)]
    simp
  simp only [settle_unclaimed, hmid, settle_delta_eq hci,
    settle_delta_eq hcj]
  have hsum : (i - ps.reward_per_share_index_last_claimed) * ps.amount +
      (j - i) * ps.amount =
      (j - ps.reward_per_share_index_last_claimed) * ps.amount := by
    rw [← Nat.add_mul]
    congr 1
    omega
  have hdiv := div_add_div_le
    ((i - ps.reward_per_share_index_last_claimed) * ps.amount)
    ((j - i) * ps.amount) REWARD_PRECISION
  rw [hsum] at hdiv
  omega

/-- Any ascending sequence of intermediate settlements ending at the final
index yields at most what a single settlement at the final index yields. -/
theorem settle_foldl_le (is : List Nat) :
    ∀ (ps : ProviderState) (fin : Nat),
      List.Chain (· ≤ ·) ps.reward_per_share_index_last_claimed
        (is ++ [fin]) →
      ((is ++ [fin]).foldl settle ps).unclaimed_rewards ≤
        (settle ps fin).unclaimed_rewards := by
  induction is with
  | nil => intro ps fin hchain; simp
  | cons i is ih =>
    intro ps fin hchain
    cases hchain with
    | cons hci hrest =>
      rw [List.cons_append, List.foldl_cons]
      have hrest' : List.Chain (· ≤ ·)
          ((settle ps i).reward_per_share_index_last_claimed)
          (is ++ [fin]) := by simpa using hrest
      have h1 := ih (settle ps i) fin hrest'
      refine le_trans h1 ?_
      exact settle_settle_le ps hci (chain_le_last hrest)

/-- place_bet_core succeeds whenever the bet list has room, the stake is
positive and none of the checked additions can overflow. -/
theorem place_bet_core_succeeds {p : Nat} {b : Bet} {w : World}
    (hlen : w.playerBets.bets.length < MAX_BETS_PER_ROUND)
    (hpos : 0 < b.amount)
    (hadd : w.vault.total_liquidity + b.amount ≤ U64_MAX)
    (hor : w.vault.owner_reward + b.amount / OWNER_DIVISOR ≤ U64_MAX)
    (hix : w.vault.reward_per_share_index +
      b.amount / PROVIDER_DIVISOR * REWARD_PRECISION ≤ U128_MAX) :
    (place_bet_core p b w).1 = none := by
  have h1 : ¬ w.playerBets.bets.length ≥ MAX_BETS_PER_ROUND := by omega
  by_cases htpc : 0 < w.vault.total_provider_capital
  · have him : b.amount / PROVIDER_DIVISOR * REWARD_PRECISION ≤
        U128_MAX := by omega
    have hne : w.vault.total_provider_capital ≠ 0 := by omega
    have hle := Nat.div_le_self
      (b.amount / PROVIDER_DIVISOR * REWARD_PRECISION)
      w.vault.total_provider_capital
    have hadd128 : w.vault.reward_per_share_index +
        b.amount / PROVIDER_DIVISOR * REWARD_PRECISION /
          w.vault.total_provider_capital ≤ U128_MAX := by omega
    simp [place_bet_core, h1, hpos, checked_add64_of_le hadd,
      checked_add64_of_le hor, checked_mul128_of_le him,
      checked_div_of_ne hne, checked_add128_of_le hadd128, htpc]
  · simp [place_bet_core, h1, hpos, checked_add64_of_le hadd,
      checked_add64_of_le hor, htpc]

/-- C6: in an AcceptingBets round with a valid bet type, a bet of exactly
floor(total_liquidity * MAX_BET_PERCENTAGE / MAX_BET_PERCENTAGE_DIVISOR)
passes the exposure check and the instruction succeeds (given the record has
room, the threshold is positive, and the checked u64/u128 additions cannot
overflow), while any strictly larger amount fails with
BetAmountExceedsLimit. -/
theorem C6_max_bet_boundary (p bt : Nat) (ns : Numbers) (w : World)
    (hacc : w.session.round_status = RoundStatus.AcceptingBets)
    (hbt : bt ≤ BET_TYPE_MAX)
    (htl : w.vault.total_liquidity ≤ U64_MAX)
    (hpos : 0 < w.vault.total_liquidity * MAX_BET_PERCENTAGE /
      MAX_BET_PERCENTAGE_DIVISOR)
    (hadd : w.vault.total_liquidity +
      w.vault.total_liquidity * MAX_BET_PERCENTAGE /
        MAX_BET_PERCENTAGE_DIVISOR ≤ U64_MAX)
    (hor : w.vault.owner_reward +
      w.vault.total_liquidity * MAX_BET_PERCENTAGE /
        MAX_BET_PERCENTAGE_DIVISOR / OWNER_DIVISOR ≤ U64_MAX)
    (hix : w.vault.reward_per_share_index +
      w.vault.total_liquidity * MAX_BET_PERCENTAGE /
        MAX_BET_PERCENTAGE_DIVISOR / PROVIDER_DIVISOR * REWARD_PRECISION ≤
      U128_MAX)
    (hpb : w.playerBets.round = w.session.current_round →
      w.playerBets.vault = VAULT_KEY ∧
        w.playerBets.bets.length < MAX_BETS_PER_ROUND) :
    (place_bet p
      { amount := w.vault.total_liquidity * MAX_BET_PERCENTAGE /
          MAX_BET_PERCENTAGE_DIVISOR, bet_type := bt, numbers := ns } w).1 =
      none ∧
    ∀ amt : Nat, w.vault.total_liquidity * MAX_BET_PERCENTAGE /
        MAX_BET_PERCENTAGE_DIVISOR < amt →
      (place_bet p { amount := amt, bet_type := bt, numbers := ns } w).1 =
        some Err.BetAmountExceedsLimit := by
  have hU64 := U64_MAX_eq
  have hU128 := U128_MAX_eq
  have hmul : w.vault.total_liquidity * MAX_BET_PERCENTAGE ≤ U128_MAX := by
    simp only [MAX_BET_PERCENTAGE]
    omega
  have h100 : (MAX_BET_PERCENTAGE_DIVISOR : Nat) ≠ 0 := by
    norm_num [MAX_BET_PERCENTAGE_DIVISOR]
  have hmod : w.vault.total_liquidity * MAX_BET_PERCENTAGE /
      MAX_BET_PERCENTAGE_DIVISOR % (U64_MAX + 1) =
      w.vault.total_liquidity * MAX_BET_PERCENTAGE /
        MAX_BET_PERCENTAGE_DIVISOR := Nat.mod_eq_of_lt (by omega)
  constructor
  · by_cases hr : w.playerBets.round = w.session.current_round
    · obtain ⟨hvk, hlen⟩ := hpb hr
      have hcore := place_bet_core_succeeds (p := p)
        (b := { amount := w.vault.total_liquidity * MAX_BET_PERCENTAGE /
            MAX_BET_PERCENTAGE_DIVISOR, bet_type := bt, numbers := ns })
        (w := w) hlen hpos hadd hor hix
      simp [place_bet, hacc, hbt, checked_mul128_of_le hmul,
        checked_div_of_ne h100, hmod, hr, hvk, hcore]
    · have hcore := place_bet_core_succeeds (p := p)
        (b := { amount := w.vault.total_liquidity * MAX_BET_PERCENTAGE /
            MAX_BET_PERCENTAGE_DIVISOR, bet_type := bt, numbers := ns })
        (w := { w with playerBets :=
          { w.playerBets with
            bets := [], round := w.session.current_round,
            vault := VAULT_KEY,
            player := if w.playerBets.player = 0 then p
              else w.playerBets.player } })
        (by simp [MAX_BETS_PER_ROUND]) hpos hadd hor hix
      simp [place_bet, hacc, hbt, checked_mul128_of_le hmul,
        checked_div_of_ne h100, hmod, hr, hcore]
  · intro amt hlt
    have hnle : ¬ amt ≤ w.vault.total_liquidity * MAX_BET_PERCENTAGE /
        MAX_BET_PERCENTAGE_DIVISOR % (U64_MAX + 1) := by
      rw [hmod]; omega
    simp [place_bet, hacc, hbt, checked_mul128_of_le hmul,
      checked_div_of_ne h100, hnle]

/-- C6 witness: with 1000 units of liquidity the maximum bet is 40; a bet of
40 succeeds and a bet of 41 fails with BetAmountExceedsLimit. -/
theorem C6_max_bet_boundary_witness :
    (place_bet 3 { amount := 40, bet_type := 0, numbers := ⟨7, 0, 0, 0⟩ }
      wLimit).1 = none ∧
    (place_bet 3 { amount := 41, bet_type := 0, numbers := ⟨7, 0, 0, 0⟩ }
      wLimit).1 = some Err.BetAmountExceedsLimit := by
  have h := C6_max_bet_boundary 3 0 ⟨7, 0, 0, 0⟩ wLimit (by decide)
    (by decide) (by decide) (by decide) (by decide) (by decide) (by decide)
    (fun _ => by decide)
  exact ⟨h.1, h.2 41 (by decide)⟩

/-- C9: the winner predicate satisfies the fixed wheel layout: a straight bet
on 17 wins when 17 is drawn; neither red nor black wins on zero, for every
numbers parameter; manque wins on 18 and loses on 19, for every numbers
parameter; and a corner bet whose anchor is malformed (zero, above 34, or a
multiple of three) never wins, for every winning number, instead of
failing. -/
theorem C9_is_bet_winner_layout :
    is_bet_winner 0 ⟨17, 0, 0, 0⟩ 17 = true ∧
    (∀ ns : Numbers, is_bet_winner 6 ns 0 = false) ∧
    (∀ ns : Numbers, is_bet_winner 7 ns 0 = false) ∧
    (∀ ns : Numbers, is_bet_winner 10 ns 18 = true) ∧
    (∀ ns : Numbers, is_bet_winner 10 ns 19 = false) ∧
    (∀ (ns : Numbers) (wn : Nat),
      (ns.n0 = 0 ∨ 34 < ns.n0 ∨ ns.n0 % 3 = 0) →
      is_bet_winner 2 ns wn = false) := by
  refine ⟨rfl, fun ns => rfl, fun ns => rfl, fun ns => rfl, fun ns => rfl,
    ?_⟩
  intro ns wn h
  simp only [is_bet_winner]
  rw [if_pos h]

/-- C9 witness: a corner anchored at 6 (a multiple of three) loses on 7,
which is adjacent on the table. -/
theorem C9_is_bet_winner_layout_witness :
    is_bet_winner 2 ⟨6, 0, 0, 0⟩ 7 = false :=
  C9_is_bet_winner_layout.2.2.2.2.2 ⟨6, 0, 0, 0⟩ 7 (by decide)

/-- C3 (bug demonstration): on wLost the claim computes a zero payout; the
raw instruction body writes claimed_round := 1 and then returns
NoWinningsFound, so the failed transaction is rolled back and the committed
claimed_round remains 0 -- the claim right is not consumed, contrary to the
stated behaviour.  A repeated claim of the same round nevertheless fails
again (with NoWinningsFound once more). -/
theorem C3_zero_claim_mark_rolled_back :
    (runRaw (Op.claimMyWinnings 3 1) wLost).1 = some Err.NoWinningsFound ∧
    ((runRaw (Op.claimMyWinnings 3 1) wLost).2).playerBets.claimed_round
      = 1 ∧
    step (Op.claimMyWinnings 3 1) wLost = wLost ∧
    (step (Op.claimMyWinnings 3 1) wLost).playerBets.claimed_round = 0 ∧
    (runRaw (Op.claimMyWinnings 3 1)
      (step (Op.claimMyWinnings 3 1) wLost)).1 =
      some Err.NoWinningsFound := by
  refine ⟨by decide, by decide, by decide, by decide, by decide⟩

/-- C5: every failing instruction leaves the observable state unchanged: the
host ledger commits the raw account writes only on success, so any error
aborts with zero state change.  The second conjunct exhibits the one raw
write that this rollback discards: the zero-payout claim path writes
claimed_round before erroring, yet the committed state is untouched. -/
theorem C5_failure_atomicity :
    (∀ (op : Op) (w : World) (e : Err),
      (runRaw op w).1 = some e → step op w = w) ∧
    ((runRaw (Op.claimMyWinnings 3 1) wLost).2 ≠ wLost ∧
      step (Op.claimMyWinnings 3 1) wLost = wLost) := by
  constructor
  · intro op w e h
    unfold step commit
    rw [h]
  · exact ⟨by decide, by decide⟩

/-- C5 witness: closing bets on a completed round fails with BetsNotAccepted
and commits nothing. -/
theorem C5_failure_atomicity_witness :
    step (Op.closeBets 9 0) wLost = wLost :=
  C5_failure_atomicity.1 (Op.closeBets 9 0) wLost Err.BetsNotAccepted
    (by decide)

/-! Committed-transition helpers. -/

theorem step_of_error {op : Op} {w : World} {e : Err}
    (h : (runRaw op w).1 = some e) : step op w = w := by
  unfold step commit
  rw [h]

theorem step_of_ok {op : Op} {w w' : World}
    (h : runRaw op w = (none, w')) : step op w = w' := by
  unfold step commit
  rw [h]

/-- If the raw body leaves the session untouched, so does the committed
transition, whether the instruction succeeds or fails. -/
theorem step_session_eq (op : Op) {w : World}
    (hs : ((runRaw op w).2).session = w.session) :
    (step op w).session = w.session := by
  unfold step commit
  rcases hres : runRaw op w with ⟨fst, w2⟩
  rw [hres] at hs
  cases fst
  · simpa using hs
  · rfl

/-- The committed place_bet transition preserves every session field that the
round-lifecycle invariants mention. -/
theorem step_placeBet_session (p : Nat) (b : Bet) (w : World) :
    (step (Op.placeBet p b) w).session.current_round =
      w.session.current_round ∧
    (step (Op.placeBet p b) w).session.last_completed_round =
      w.session.last_completed_round ∧
    (step (Op.placeBet p b) w).session.round_status =
      w.session.round_status ∧
    (step (Op.placeBet p b) w).session.winning_number =
      w.session.winning_number := by
  have hraw := place_bet_raw p b w
  unfold step commit
  rcases hres : runRaw (Op.placeBet p b) w with ⟨fst, w2⟩
  have hres' : place_bet p b w = (fst, w2) := hres
  rw [hres'] at hraw
  cases fst
  · simp only [] at hraw ⊢
    exact ⟨hraw.1, hraw.2.1, hraw.2.2.1, hraw.2.2.2.1⟩
  · exact ⟨rfl, rfl, rfl, rfl⟩

/-- C2: when the stored bets belong to the last completed round, the round is
unclaimed and the winning-bet sum is positive (and fits in a u64), the
committed effect of claim_my_winnings is to transfer exactly
min(total_payout, total_liquidity) to the player and to decrement
total_liquidity by exactly that actual payout; with positive liquidity the
instruction succeeds (with zero liquidity it aborts, transferring the zero
minimum). -/
theorem C2_payout_capped (w : World) (r wn : Nat)
    (hlcr : w.session.last_completed_round = r)
    (hwn : w.session.winning_number = some wn)
    (hround : w.playerBets.round = r)
    (hclaimed : w.playerBets.claimed_round < r)
    (hfit : payout_sum w.playerBets.bets wn ≤ U64_MAX)
    (hpos : 0 < payout_sum w.playerBets.bets wn) :
    (step (Op.claimMyWinnings w.playerBets.player r) w).player_balance =
      w.player_balance +
        min (payout_sum w.playerBets.bets wn) w.vault.total_liquidity ∧
    (step (Op.claimMyWinnings w.playerBets.player r) w).vault.total_liquidity
      = w.vault.total_liquidity -
        min (payout_sum w.playerBets.bets wn) w.vault.total_liquidity ∧
    (0 < w.vault.total_liquidity →
      (runRaw (Op.claimMyWinnings w.playerBets.player r) w).1 = none) := by
  have hsum := compute_total_payout_eq hfit
  have hnz : payout_sum w.playerBets.bets wn ≠ 0 := by omega
  rcases Nat.eq_zero_or_pos w.vault.total_liquidity with htl | htl
  · have hmin : min (payout_sum w.playerBets.bets wn)
        w.vault.total_liquidity = 0 := by omega
    have hraw : (runRaw (Op.claimMyWinnings w.playerBets.player r) w).1 =
        some Err.InsufficientLiquidity := by
      simp [runRaw, claim_my_winnings, hlcr, hwn, hround, hclaimed, hsum,
        hnz, htl]
    rw [step_of_error hraw, hmin]
    exact ⟨by omega, by omega, fun hc => by omega⟩
  · have hmpos : 0 < min (payout_sum w.playerBets.bets wn)
        w.vault.total_liquidity := by omega
    have hminle : min (payout_sum w.playerBets.bets wn)
        w.vault.total_liquidity ≤ w.vault.total_liquidity :=
      Nat.min_le_right _ _
    refine ⟨?_, ?_, fun _ => ?_⟩
    all_goals simp [step, commit, runRaw, claim_my_winnings, hlcr, hwn,
      hround, hclaimed, hsum, hnz, hmpos, checked_sub_of_le hminle]

/-- C2 witness: a 360-unit payout against 100 units of liquidity transfers
exactly 100 and empties the vault. -/
theorem C2_payout_capped_witness :
    (step (Op.claimMyWinnings 3 1) wWin).player_balance = 100 ∧
    (step (Op.claimMyWinnings 3 1) wWin).vault.total_liquidity = 0 ∧
    (runRaw (Op.claimMyWinnings 3 1) wWin).1 = none := by
  have h := C2_payout_capped wWin 1 7 (by decide) (by decide) (by decide)
    (by decide) (by decide) (by decide)
  exact ⟨h.1.trans (by decide), h.2.1.trans (by decide), h.2.2 (by decide)⟩

/-- C1 counterexample: starting from a freshly seeded vault of 1000 units,
one maximum bet of 40 on the winning straight number yields a claim that
pays the entire 1040-unit liquidity (the payout is capped only by
total_liquidity), leaving total_liquidity = 0 strictly below
total_provider_capital = 1000. -/
theorem C1_liquidity_invariant_counterexample :
    (runTrace W0 traceC1).vault.total_liquidity <
      (runTrace W0 traceC1).vault.total_provider_capital := by decide

/-- C1 amended: total_liquidity = total_provider_capital after
initialize_and_provide_liquidity, and total_liquidity ≥
total_provider_capital is preserved by provide_liquidity, place_bet and
distribute_payout_reserve unconditionally, and by the three withdrawal
instructions whenever the rewards component paid out does not exceed the
reserve total_liquidity - total_provider_capital.  claim_my_winnings does
not preserve it (see the counterexample): a winning payout is capped only by
total_liquidity and can consume provider capital. -/
theorem C1_liquidity_invariant_amended :
    (∀ (p a : Nat) (w : World),
      (step (Op.initializeAndProvideLiquidity p a) w).vault.total_liquidity
        = (step (Op.initializeAndProvideLiquidity p a) w).vault.total_provider_capital) ∧
    (∀ (p a : Nat) (w : World),
      w.vault.total_provider_capital ≤ w.vault.total_liquidity →
      (step (Op.provideLiquidity p a) w).vault.total_provider_capital ≤
        (step (Op.provideLiquidity p a) w).vault.total_liquidity) ∧
    (∀ (p : Nat) (b : Bet) (w : World),
      w.vault.total_provider_capital ≤ w.vault.total_liquidity →
      (step (Op.placeBet p b) w).vault.total_provider_capital ≤
        (step (Op.placeBet p b) w).vault.total_liquidity) ∧
    (∀ (a : Nat) (w : World),
      w.vault.total_provider_capital ≤ w.vault.total_liquidity →
      (step (Op.distributePayoutReserve a) w).vault.total_provider_capital ≤
        (step (Op.distributePayoutReserve a) w).vault.total_liquidity) ∧
    (∀ (a : Nat) (w : World),
      w.vault.total_provider_capital ≤ w.vault.total_liquidity →
      w.vault.owner_reward ≤
        w.vault.total_liquidity - w.vault.total_provider_capital →
      (step (Op.withdrawOwnerRevenue a) w).vault.total_provider_capital ≤
        (step (Op.withdrawOwnerRevenue a) w).vault.total_liquidity) ∧
    (∀ (p : Nat) (w : World),
      w.vault.total_provider_capital ≤ w.vault.total_liquidity →
      (∀ ps, w.provider = some ps →
        pending_rewards ps w.vault.reward_per_share_index ≤
          w.vault.total_liquidity - w.vault.total_provider_capital) →
      (step (Op.withdrawProviderRevenue p) w).vault.total_provider_capital ≤
        (step (Op.withdrawProviderRevenue p) w).vault.total_liquidity) ∧
    (∀ (p : Nat) (w : World),
      w.vault.total_provider_capital ≤ w.vault.total_liquidity →
      (∀ ps, w.provider = some ps →
        pending_rewards ps w.vault.reward_per_share_index ≤
          w.vault.total_liquidity - w.vault.total_provider_capital) →
      (step (Op.withdrawLiquidity p) w).vault.total_provider_capital ≤
        (step (Op.withdrawLiquidity p) w).vault.total_liquidity) := by
  refine ⟨?_, ?_, ?_, ?_, ?_, ?_, ?_⟩
  · intro p a w
    simp [step, commit, runRaw, initialize_and_provide_liquidity]
  · intro p a w hle
    rcases hres : runRaw (Op.provideLiquidity p a) w with ⟨fst, w2⟩
    cases fst with
    | some e => rw [step_of_error (by rw [hres])]; exact hle
    | none =>
      rw [step_of_ok hres]
      have hres' : provide_liquidity p a w = (none, w2) := hres
      obtain ⟨h1, h2, -⟩ := provide_liquidity_ok hres'
      omega
  · intro p b w hle
    rcases hres : runRaw (Op.placeBet p b) w with ⟨fst, w2⟩
    cases fst with
    | some e => rw [step_of_error (by rw [hres])]; exact hle
    | none =>
      rw [step_of_ok hres]
      have hres' : place_bet p b w = (none, w2) := hres
      obtain ⟨h1, h2, -⟩ := place_bet_ok hres'
      omega
  · intro a w hle
    rcases hres : runRaw (Op.distributePayoutReserve a) w with ⟨fst, w2⟩
    cases fst with
    | some e => rw [step_of_error (by rw [hres])]; exact hle
    | none =>
      rw [step_of_ok hres]
      have hres' : distribute_payout_reserve a w = (none, w2) := hres
      obtain ⟨h1, h2, -⟩ := distribute_payout_reserve_ok hres'
      omega
  · intro a w hle hor
    rcases hres : runRaw (Op.withdrawOwnerRevenue a) w with ⟨fst, w2⟩
    cases fst with
    | some e => rw [step_of_error (by rw [hres])]; exact hle
    | none =>
      rw [step_of_ok hres]
      have hres' : withdraw_owner_revenue a w = (none, w2) := hres
      obtain ⟨h1, h2, h3, -⟩ := withdraw_owner_revenue_ok hres'
      omega
  · intro p w hle hpr
    rcases hres : runRaw (Op.withdrawProviderRevenue p) w with ⟨fst, w2⟩
    cases fst with
    | some e => rw [step_of_error (by rw [hres])]; exact hle
    | none =>
      rw [step_of_ok hres]
      have hres' : withdraw_provider_revenue p w = (none, w2) := hres
      obtain ⟨ps, hp, -, -, h4, h5, -⟩ := withdraw_provider_revenue_ok hres'
      have := hpr ps hp
      omega
  · intro p w hle hpr
    rcases hres : runRaw (Op.withdrawLiquidity p) w with ⟨fst, w2⟩
    cases fst with
    | some e => rw [step_of_error (by rw [hres])]; exact hle
    | none =>
      rw [step_of_ok hres]
      have hres' : withdraw_liquidity p w = (none, w2) := hres
      obtain ⟨ps, hp, h2, h3, h4, h5, -⟩ := withdraw_liquidity_ok hres'
      have := hpr ps hp
      omega

/-- C1 amended witness: the maximum bet on the 1000-unit vault keeps capital
covered. -/
theorem C1_liquidity_invariant_amended_witness :
    (step (Op.placeBet 3 { amount := 40, bet_type := 0, numbers := ⟨7, 0, 0, 0⟩ })
        wLimit).vault.total_provider_capital ≤
      (step (Op.placeBet 3 { amount := 40, bet_type := 0, numbers := ⟨7, 0, 0, 0⟩ })
        wLimit).vault.total_liquidity :=
  C1_liquidity_invariant_amended.2.2.1 3
    { amount := 40, bet_type := 0, numbers := ⟨7, 0, 0, 0⟩ } wLimit
    (by decide)

/-- C4 counterexample: completing round 1 and then starting round 2 leaves
winning_number set (start_new_round does not clear it) while the status is
AcceptingBets, so the claimed equivalence fails after start_new_round. -/
theorem C4_completed_iff_winning_counterexample :
    (runTrace W0 traceC4).session.winning_number.isSome = true ∧
    (runTrace W0 traceC4).session.round_status ≠ RoundStatus.Completed :=
  ⟨by decide, by decide⟩

/-- C4 amended: only the forward direction is an invariant: round_status =
Completed implies winning_number.is_some, established by
initialize_game_session and preserved by every operation.  The converse
fails because start_new_round leaves winning_number set (see the
counterexample). -/
theorem C4_completed_implies_winning_amended (op : Op) (w : World)
    (hinv : w.session.round_status = RoundStatus.Completed →
      w.session.winning_number.isSome = true) :
    (step op w).session.round_status = RoundStatus.Completed →
    (step op w).session.winning_number.isSome = true := by
  cases op with
  | initializeGameSession a =>
    intro hc
    simp [step, commit, runRaw, initialize_game_session] at hc
  | initializePlayerBets p =>
    rw [step_session_eq (Op.initializePlayerBets p) (initialize_player_bets_session p w)]
    exact hinv
  | startNewRound s now =>
    rcases hres : runRaw (Op.startNewRound s now) w with ⟨fst, w2⟩
    cases fst with
    | some e => rw [step_of_error (by rw [hres])]; exact hinv
    | none =>
      rw [step_of_ok hres]
      have hres' : start_new_round s now w = (none, w2) := hres
      obtain ⟨-, -, hst, -, -, -, -⟩ := start_new_round_ok hres'
      intro hc
      rw [hst] at hc
      exact absurd hc (by simp)
  | closeBets c now =>
    rcases hres : runRaw (Op.closeBets c now) w with ⟨fst, w2⟩
    cases fst with
    | some e => rw [step_of_error (by rw [hres])]; exact hinv
    | none =>
      rw [step_of_ok hres]
      have hres' : close_bets c now w = (none, w2) := hres
      obtain ⟨-, -, hst, -, -, -, -⟩ := close_bets_ok hres'
      intro hc
      rw [hst] at hc
      exact absurd hc (by simp)
  | getRandom i now entropy =>
    rcases hres : runRaw (Op.getRandom i now entropy) w with ⟨fst, w2⟩
    cases fst with
    | some e => rw [step_of_error (by rw [hres])]; exact hinv
    | none =>
      rw [step_of_ok hres]
      have hres' : get_random i now entropy w = (none, w2) := hres
      obtain ⟨-, -, -, hwn, -, -, -⟩ := get_random_ok hres'
      intro _
      rw [hwn]
      rfl
  | initializeAndProvideLiquidity p a =>
    rw [step_session_eq (Op.initializeAndProvideLiquidity p a) (initialize_and_provide_liquidity_session p a w)]
    exact hinv
  | provideLiquidity p a =>
    rw [step_session_eq (Op.provideLiquidity p a) (provide_liquidity_session p a w)]
    exact hinv
  | placeBet p b =>
    obtain ⟨-, -, h3, h4⟩ := step_placeBet_session p b w
    rw [h3, h4]
    exact hinv
  | claimMyWinnings p r =>
    rw [step_session_eq (Op.claimMyWinnings p r) (claim_my_winnings_session p r w)]
    exact hinv
  | withdrawLiquidity p =>
    rw [step_session_eq (Op.withdrawLiquidity p) (withdraw_liquidity_session p w)]
    exact hinv
  | withdrawProviderRevenue p =>
    rw [step_session_eq (Op.withdrawProviderRevenue p) (withdraw_provider_revenue_session p w)]
    exact hinv
  | withdrawOwnerRevenue a =>
    rw [step_session_eq (Op.withdrawOwnerRevenue a) (withdraw_owner_revenue_session a w)]
    exact hinv
  | distributePayoutReserve a =>
    rw [step_session_eq (Op.distributePayoutReserve a) (distribute_payout_reserve_session a w)]
    exact hinv

/-- C4 amended witness: a failing distribute_payout_reserve on a completed
round keeps the winning number present. -/
theorem C4_completed_implies_winning_amended_witness :
    (step (Op.distributePayoutReserve 9) wLost).session.winning_number.isSome
      = true :=
  C4_completed_implies_winning_amended (Op.distributePayoutReserve 9) wLost
    (by decide) (by decide)

/-- C10: last_completed_round ≤ current_round holds after
initialize_game_session and is preserved by every operation: start_new_round
only increments current_round, get_random sets last_completed_round to the
current round, and no operation sets last_completed_round above
current_round. -/
theorem C10_round_counter_invariant :
    (∀ (a : Nat) (w : World),
      (step (Op.initializeGameSession a) w).session.last_completed_round ≤
        (step (Op.initializeGameSession a) w).session.current_round) ∧
    ∀ (op : Op) (w : World),
      w.session.last_completed_round ≤ w.session.current_round →
      (step op w).session.last_completed_round ≤
        (step op w).session.current_round := by
  constructor
  · intro a w
    simp [step, commit, runRaw, initialize_game_session]
  · intro op w hle
    cases op with
    | initializeGameSession a =>
      simp [step, commit, runRaw, initialize_game_session]
    | initializePlayerBets p =>
      rw [step_session_eq (Op.initializePlayerBets p) (initialize_player_bets_session p w)]
      exact hle
    | startNewRound s now =>
      rcases hres : runRaw (Op.startNewRound s now) w with ⟨fst, w2⟩
      cases fst with
      | some e => rw [step_of_error (by rw [hres])]; exact hle
      | none =>
        rw [step_of_ok hres]
        have hres' : start_new_round s now w = (none, w2) := hres
        obtain ⟨h1, h2, -, -, -, -, -⟩ := start_new_round_ok hres'
        omega
    | closeBets c now =>
      rcases hres : runRaw (Op.closeBets c now) w with ⟨fst, w2⟩
      cases fst with
      | some e => rw [step_of_error (by rw [hres])]; exact hle
      | none =>
        rw [step_of_ok hres]
        have hres' : close_bets c now w = (none, w2) := hres
        obtain ⟨h1, h2, -, -, -, -, -⟩ := close_bets_ok hres'
        omega
    | getRandom i now entropy =>
      rcases hres : runRaw (Op.getRandom i now entropy) w with ⟨fst, w2⟩
      cases fst with
      | some e => rw [step_of_error (by rw [hres])]; exact hle
      | none =>
        rw [step_of_ok hres]
        have hres' : get_random i now entropy w = (none, w2) := hres
        obtain ⟨h1, h2, -, -, -, -, -⟩ := get_random_ok hres'
        omega
    | initializeAndProvideLiquidity p a =>
      rw [step_session_eq (Op.initializeAndProvideLiquidity p a) (initialize_and_provide_liquidity_session p a w)]
      exact hle
    | provideLiquidity p a =>
      rw [step_session_eq (Op.provideLiquidity p a) (provide_liquidity_session p a w)]
      exact hle
    | placeBet p b =>
      obtain ⟨h1, h2, -, -⟩ := step_placeBet_session p b w
      rw [h1, h2]
      exact hle
    | claimMyWinnings p r =>
      rw [step_session_eq (Op.claimMyWinnings p r) (claim_my_winnings_session p r w)]
      exact hle
    | withdrawLiquidity p =>
      rw [step_session_eq (Op.withdrawLiquidity p) (withdraw_liquidity_session p w)]
      exact hle
    | withdrawProviderRevenue p =>
      rw [step_session_eq (Op.withdrawProviderRevenue p) (withdraw_provider_revenue_session p w)]
      exact hle
    | withdrawOwnerRevenue a =>
      rw [step_session_eq (Op.withdrawOwnerRevenue a) (withdraw_owner_revenue_session a w)]
      exact hle
    | distributePayoutReserve a =>
      rw [step_session_eq (Op.distributePayoutReserve a) (distribute_payout_reserve_session a w)]
      exact hle

/-- C10 witness: starting a new round on the completed round 1 preserves the
counter inequality. -/
theorem C10_round_counter_invariant_witness :
    (step (Op.startNewRound 9 0) wLost).session.last_completed_round ≤
      (step (Op.startNewRound 9 0) wLost).session.current_round :=
  C10_round_counter_invariant.2 (Op.startNewRound 9 0) wLost (by decide)

/-- C7: reward-ledger arithmetic with precision REWARD_PRECISION.  A
successful place_bet leaves the index unchanged when total_provider_capital
is zero and raises it by exactly floor(floor(amount / PROVIDER_DIVISOR) *
REWARD_PRECISION / total_provider_capital) otherwise; the reward helper
computes exactly floor((current - last) * principal / REWARD_PRECISION); and
the settlement operations (provide_liquidity, withdraw_provider_revenue,
withdraw_liquidity, get_unclaimed_rewards) each apply that newly earned
amount on top of unclaimed_rewards, advancing the checkpoint to the current
index where provider state persists. -/
theorem C7_reward_ledger_arithmetic :
    (∀ (p : Nat) (b : Bet) (w w' : World),
      place_bet p b w = (none, w') →
      (w.vault.total_provider_capital = 0 →
        w'.vault.reward_per_share_index = w.vault.reward_per_share_index) ∧
      (0 < w.vault.total_provider_capital →
        w'.vault.reward_per_share_index = w.vault.reward_per_share_index +
          b.amount / PROVIDER_DIVISOR * REWARD_PRECISION /
            w.vault.total_provider_capital)) ∧
    (∀ (ps : ProviderState) (i : Nat),
      ps.reward_per_share_index_last_claimed ≤ i →
      (i - ps.reward_per_share_index_last_claimed) * ps.amount ≤ U128_MAX →
      (i - ps.reward_per_share_index_last_claimed) * ps.amount /
        REWARD_PRECISION ≤ U64_MAX →
      calculate_newly_earned_rewards ps i = Except.ok
        ((i - ps.reward_per_share_index_last_claimed) * ps.amount /
          REWARD_PRECISION)) ∧
    (∀ (p a : Nat) (ps : ProviderState) (w w' : World),
      w.provider = some ps → ps.vault = VAULT_KEY →
      ps.reward_per_share_index_last_claimed ≤
        w.vault.reward_per_share_index →
      provide_liquidity p a w = (none, w') →
      w'.provider = some
        { ps with
          amount := ps.amount + a,
          unclaimed_rewards := ps.unclaimed_rewards +
            (w.vault.reward_per_share_index -
              ps.reward_per_share_index_last_claimed) * ps.amount /
              REWARD_PRECISION,
          reward_per_share_index_last_claimed :=
            w.vault.reward_per_share_index }) ∧
    (∀ (p : Nat) (ps : ProviderState) (w w' : World),
      w.provider = some ps →
      ps.reward_per_share_index_last_claimed ≤
        w.vault.reward_per_share_index →
      withdraw_provider_revenue p w = (none, w') →
      w'.provider_balance = w.provider_balance +
        (ps.unclaimed_rewards +
          (w.vault.reward_per_share_index -
            ps.reward_per_share_index_last_claimed) * ps.amount /
            REWARD_PRECISION) ∧
      w'.provider = some
        { ps with
          unclaimed_rewards := 0,
          reward_per_share_index_last_claimed :=
            w.vault.reward_per_share_index }) ∧
    (∀ (p : Nat) (ps : ProviderState) (w w' : World),
      w.provider = some ps →
      ps.reward_per_share_index_last_claimed ≤
        w.vault.reward_per_share_index →
      withdraw_liquidity p w = (none, w') →
      w'.provider_balance = w.provider_balance + (ps.amount +
        (ps.unclaimed_rewards +
          (w.vault.reward_per_share_index -
            ps.reward_per_share_index_last_claimed) * ps.amount /
            REWARD_PRECISION))) ∧
    (∀ (ps : ProviderState) (w : World) (n : Nat),
      w.provider = some ps →
      ps.reward_per_share_index_last_claimed ≤
        w.vault.reward_per_share_index →
      get_unclaimed_rewards w = Except.ok n →
      n = ps.unclaimed_rewards +
        (w.vault.reward_per_share_index -
          ps.reward_per_share_index_last_claimed) * ps.amount /
          REWARD_PRECISION) := by
  refine ⟨?_, ?_, ?_, ?_, ?_, ?_⟩
  · intro p b w w' h
    obtain ⟨-, -, -, h4, h5, -⟩ := place_bet_ok h
    exact ⟨h4, h5⟩
  · intro ps i hle hm hd
    exact calc_eq hle hm hd
  · intro p a ps w w' hp hv hle h
    have hc := provide_liquidity_ok_provider hp hv h
    rw [settle_delta_eq hle] at hc
    exact hc
  · intro p ps w w' hp hle h
    obtain ⟨ps', hp', hpos, hple, hTL, hTPC, hIdx, hbal, hprov, hpb⟩ :=
      withdraw_provider_revenue_ok h
    rw [hp] at hp'
    injection hp' with hps
    subst hps
    constructor
    · rw [hbal]
      simp only [pending_rewards, settle_delta_eq hle]
    · exact hprov
  · intro p ps w w' hp hle h
    obtain ⟨ps', hp', hle2, hTL, hcap, hTPC, hprov, hbal, hpb⟩ :=
      withdraw_liquidity_ok h
    rw [hp] at hp'
    injection hp' with hps
    subst hps
    rw [hbal]
    simp only [pending_rewards, settle_delta_eq hle]
  · intro ps w n hp hle hok
    simp only [get_unclaimed_rewards, hp] at hok
    split at hok
    · exact Except.noConfusion hok
    · cases hcalc : calculate_newly_earned_rewards ps
          w.vault.reward_per_share_index with
      | error e => rw [hcalc] at hok; exact Except.noConfusion hok
      | ok newly =>
        rw [hcalc] at hok
        have h1 := calc_ok hcalc
        rw [settle_delta_eq hle] at h1
        repeat' split at hok
        all_goals simp_all

/-- C7 witness: a provider of principal 3100 and checkpoint 0 earns exactly
floor(645161290 * 3100 / REWARD_PRECISION) = 1 at index 645161290. -/
theorem C7_reward_ledger_arithmetic_witness :
    calculate_newly_earned_rewards psDust 645161290 = Except.ok 1 :=
  (C7_reward_ledger_arithmetic.2.1 psDust 645161290 (by decide) (by decide)
    (by decide)).trans (by rfl)

/-- C8 counterexample: with provider principal 3100 (psDust), the index
values 645161290 and 1290322580 are exactly those produced by two
successive 124-unit bets on a freshly seeded 3100-unit vault; settling after
each bet accrues 1 + 1 = 2 units, while settling once at the final index
accrues 3: interleaved settlement is not equivalent to settling once. -/
theorem C8_order_independence_counterexample :
    (runTrace W0 traceC8a).vault.reward_per_share_index = 645161290 ∧
    (runTrace W0 traceC8b).vault.reward_per_share_index = 1290322580 ∧
    (settle (settle psDust 645161290) 1290322580).unclaimed_rewards = 2 ∧
    (settle psDust 1290322580).unclaimed_rewards = 3 ∧
    (settle (settle psDust 645161290) 1290322580).unclaimed_rewards ≠
      (settle psDust 1290322580).unclaimed_rewards :=
  ⟨by decide, by decide, by decide, by decide, by decide⟩

/-- C8 amended: settlement is monotone rather than order-independent: for a
provider with fixed principal, any ascending sequence of intermediate
settlements ending at the final index yields at most the unclaimed rewards
of a single settlement at the final index (each truncation can only lose
dust; the counterexample shows the loss can be strict). -/
theorem C8_order_independence_amended (ps : ProviderState) (is : List Nat)
    (fin : Nat)
    (hchain : List.Chain (· ≤ ·) ps.reward_per_share_index_last_claimed
      (is ++ [fin])) :
    ((is ++ [fin]).foldl settle ps).unclaimed_rewards ≤
      (settle ps fin).unclaimed_rewards :=
  settle_foldl_le is ps fin hchain

/-- C8 amended witness: settling psDust at 645161290 and then at 1290322580
yields no more than settling once at 1290322580 (2 versus 3). -/
theorem C8_order_independence_amended_witness :
    ((([645161290] : List Nat) ++ [1290322580]).foldl settle
      psDust).unclaimed_rewards ≤
      (settle psDust 1290322580).unclaimed_rewards :=
  C8_order_independence_amended psDust [645161290] 1290322580
    (List.Chain.cons (by decide)
      (List.Chain.cons (by decide) List.Chain.nil))

end Roulette
